import Mathlib

/- Verification development for the `benchy` micro-benchmark suite
(`src/main.rs`).  The Rust program is shallowly embedded: pure computations
become Lean functions, the pseudo-random draws of `rand` become an explicit
parameter reduced into the requested range, the observable structure of each
parallel phase (work units, joins, timing prints) becomes an event trace, the
fallible filesystem/IO operations become an oracle of per-operation outcomes
threaded through `Except`, and the `f64` arithmetic of the unshared-memory
benchmark is modelled exactly as rationals with IEEE-754 binary64
round-to-nearest-even. -/

namespace Benchy

/- Constants, named as in `src/main.rs`. -/

def CPU_FIBONACCI_IT : ℕ := 42

def SHARED_MEMORY_SIZE : ℕ := 4 * 1024 * 1024 * 1024

def SHARED_MEMORY_ITERATIONS_MUTEX : ℕ := 2000000

def SHARED_MEMORY_ITERATIONS_ATOMIC : ℕ := 20000000

def IO_FILE_SIZE : ℕ := 4 * 1024 * 1024 * 1024

def IO_READ_ITERATIONS : ℕ := 20000

def FS_ITERATIONS : ℕ := 50000

/-- Thread-count resolution in `main`:
`args.threads.unwrap_or_else(|| num_cpus::get() / 2)`. -/
def resolveThreadCount (threadsArg : Option ℕ) (logicalCpus : ℕ) : ℕ :=
  threadsArg.getD (logicalCpus / 2)

/-- Model of `rng.random_range(lo..hi)`: an arbitrary generator draw `r`
reduced into the half-open range `[lo, hi)`. -/
def randomRange (r lo hi : ℕ) : ℕ := lo + r % (hi - lo)

/- CPU benchmark (`cpu_work` and its nested `fib`). -/

/-- The nested `fib` of `cpu_work`: naive double recursion over `u32`
(`if n <= 1 { n } else { fib(n - 1) + fib(n - 2) }`); the `u32` addition is
modelled with an explicit `% 2 ^ 32`. -/
def fib : ℕ → ℕ
  | 0 => 0
  | 1 => 1
  | n + 2 => (fib (n + 1) + fib n) % 2 ^ 32

/-- `cpu_work` computes `fib(n)` and discards it; the model returns the
computed value so that its determinism can be stated. -/
def cpu_work (n : ℕ) : ℕ := fib n

/- Shared-memory benchmarks: index generation (`memory_test_mutex`,
`memory_test_atomic`). -/

/-- Mutex benchmark offset: `rng.random_range(0..SHARED_MEMORY_SIZE - 64)`. -/
def mutexIdx (r : ℕ) : ℕ := randomRange r 0 (SHARED_MEMORY_SIZE - 64)

/-- `let num_elements = SHARED_MEMORY_SIZE / 8` in `memory_test_atomic`. -/
def num_elements : ℕ := SHARED_MEMORY_SIZE / 8

/-- Atomic benchmark cell index: `rng.random_range(0..num_elements)`. -/
def atomicIdx (r : ℕ) : ℕ := randomRange r 0 num_elements

/- Lemmas about `fib`. -/

lemma fib_eq_nat_fib_mod (n : ℕ) : fib n = Nat.fib n % 2 ^ 32 := by
  induction n using Nat.strong_induction_on with
  | _ n ih =>
    match n with
    | 0 => simp [fib]
    | 1 => simp [fib]
    | n + 2 =>
      rw [fib, ih (n + 1) (by omega), ih n (by omega), Nat.fib_add_two]
      calc (Nat.fib (n + 1) % 2 ^ 32 + Nat.fib n % 2 ^ 32) % 2 ^ 32
          = (Nat.fib (n + 1) + Nat.fib n) % 2 ^ 32 := (Nat.add_mod _ _ _).symm
        _ = (Nat.fib n + Nat.fib (n + 1)) % 2 ^ 32 := by rw [Nat.add_comm]

/-- C4: the CPU benchmark's 32-bit Fibonacci function is deterministic — any
number of concurrent copies compute the same value — and at the fixed
iteration constant 42 it equals the mathematical Fibonacci number
`Nat.fib 42 = 267914296`. -/
theorem cpu_work_deterministic_and_correct (k : ℕ) :
    List.replicate k (cpu_work CPU_FIBONACCI_IT) = List.replicate k 267914296
    ∧ cpu_work CPU_FIBONACCI_IT = Nat.fib 42
    ∧ Nat.fib 42 = 267914296 := by
  have h42 : Nat.fib 42 = 267914296 := by decide
  have hv : cpu_work CPU_FIBONACCI_IT = 267914296 := by
    rw [show cpu_work CPU_FIBONACCI_IT = fib 42 from rfl, fib_eq_nat_fib_mod, h42]
    norm_num
  exact ⟨by rw [hv], by rw [hv, h42], h42⟩

/-- C1 counterexample: with no explicit thread count and exactly one logical
CPU, the code resolves the thread count to `1 / 2 = 0`, not
`max 1 (1 / 2) = 1` as the claim states. -/
theorem resolveThreadCount_claim_false_at_one_cpu :
    resolveThreadCount none 1 = 0 ∧ resolveThreadCount none 1 ≠ max 1 (1 / 2) := by
  constructor
  · rfl
  · decide

/-- C1 amended: when the thread-count argument is omitted, the resolved thread
count is exactly `logical_cpu_count / 2` (floored) with no lower bound applied;
for every logical CPU count `≥ 2` this coincides with `max 1 (n / 2)`, but for
a single logical CPU it is `0`. -/
theorem resolveThreadCount_default (n : ℕ) (h : 2 ≤ n) :
    resolveThreadCount none n = n / 2
    ∧ resolveThreadCount none n = max 1 (n / 2) := by
  refine ⟨rfl, ?_⟩
  show n / 2 = max 1 (n / 2)
  omega

/-- Witness for C1's amended theorem at 6 logical CPUs. -/
theorem resolveThreadCount_default_w :
    resolveThreadCount none 6 = 6 / 2
    ∧ resolveThreadCount none 6 = max 1 (6 / 2) :=
  resolveThreadCount_default 6 (by decide)

/-- C3: every mutex-benchmark offset lies in `[0, 4 GiB - 64)` and every
atomic-benchmark index lies in `[0, num_elements)`, so indexing into the
4 GiB byte buffer (respectively the `num_elements`-cell array) never goes out
of bounds, for every possible generator draw. -/
theorem shared_memory_access_in_bounds (r : ℕ) :
    mutexIdx r < SHARED_MEMORY_SIZE - 64
    ∧ ((List.replicate SHARED_MEMORY_SIZE (0 : ℕ))[mutexIdx r]?).isSome
    ∧ atomicIdx r < num_elements
    ∧ num_elements = SHARED_MEMORY_SIZE / 8
    ∧ ((List.replicate num_elements (0 : ℕ))[atomicIdx r]?).isSome := by
  have hm : mutexIdx r < SHARED_MEMORY_SIZE - 64 := by
    simp only [mutexIdx, randomRange, SHARED_MEMORY_SIZE]
    omega
  have ha : atomicIdx r < num_elements := by
    simp only [atomicIdx, randomRange, num_elements, SHARED_MEMORY_SIZE]
    omega
  have hm2 : mutexIdx r < (List.replicate SHARED_MEMORY_SIZE (0 : ℕ)).length := by
    rw [List.length_replicate]
    exact lt_of_lt_of_le hm (Nat.sub_le _ _)
  have ha2 : atomicIdx r < (List.replicate num_elements (0 : ℕ)).length := by
    rw [List.length_replicate]
    exact ha
  exact ⟨hm, by simp [List.getElem?_eq_getElem hm2], ha, rfl,
    by simp [List.getElem?_eq_getElem ha2]⟩

/- I/O benchmark (`io_benchmarks`), stage 1: sequential write of
`IO_FILE_SIZE / buf.len()` buffers of `1024 * 64` zero bytes. -/

/-- `let buf = vec![0u8; 1024 * 64]` — the length of the write buffer. -/
def writeBufLen : ℕ := 1024 * 64

/-- The stage-1 loop bound `size / buf.len()`. -/
def seqWriteCount : ℕ := IO_FILE_SIZE / writeBufLen

/-- The byte content produced by stage 1: `seqWriteCount` whole-buffer writes
of the 64 KiB zero buffer, concatenated in order. -/
def stage1File : List ℕ :=
  (List.replicate seqWriteCount (List.replicate writeBufLen 0)).flatten

lemma flatten_replicate_replicate (n m a : ℕ) :
    (List.replicate n (List.replicate m a)).flatten = List.replicate (n * m) a := by
  induction n with
  | zero => simp
  | succ k ih =>
    rw [List.replicate_succ, List.flatten_cons, ih, Nat.succ_mul, Nat.add_comm,
      List.replicate_add]

/-- C6: stage 1 of the I/O benchmark performs exactly `4 GiB / 64 KiB = 65536`
whole-buffer writes, with no leftover (the buffer length divides the file size
exactly), and the resulting file is exactly 4 GiB of zero bytes. -/
theorem stage1_file_exact :
    seqWriteCount = 65536
    ∧ seqWriteCount * writeBufLen = IO_FILE_SIZE
    ∧ stage1File = List.replicate IO_FILE_SIZE 0
    ∧ stage1File.length = IO_FILE_SIZE
    ∧ IO_FILE_SIZE = 4 * 1024 * 1024 * 1024 := by
  have h1 : seqWriteCount = 65536 := by norm_num [seqWriteCount, IO_FILE_SIZE, writeBufLen]
  have h2 : seqWriteCount * writeBufLen = IO_FILE_SIZE := by
    norm_num [seqWriteCount, IO_FILE_SIZE, writeBufLen]
  have h3 : stage1File = List.replicate IO_FILE_SIZE 0 := by
    rw [stage1File, flatten_replicate_replicate, h2]
  exact ⟨h1, h2, h3, by rw [h3, List.length_replicate], rfl⟩

/- I/O benchmark, stage 2: random 4096-byte aligned direct reads. -/

/-- `const DIRECT_BLOCK_SIZE : usize = 4096` in the stage-2 worker closure. -/
def DIRECT_BLOCK_SIZE : ℕ := 4096

/-- `let valid_positions : usize = size / DIRECT_BLOCK_SIZE`. -/
def valid_positions : ℕ := IO_FILE_SIZE / DIRECT_BLOCK_SIZE

/-- Stage-2 block position: `rng.random_range(0..valid_positions)`. -/
def readPos (r : ℕ) : ℕ := randomRange r 0 valid_positions

/-- The byte offset seeked to: `(pos * DIRECT_BLOCK_SIZE) as u64`. -/
def readOffset (r : ℕ) : ℕ := readPos r * DIRECT_BLOCK_SIZE

/-- Model of `read_exact` of `len` bytes at offset `off`: succeeds exactly when
the requested range lies inside the file, returning those bytes. -/
def readBlock (file : List ℕ) (off len : ℕ) : Option (List ℕ) :=
  if off + len ≤ file.length then some ((file.drop off).take len) else none

/-- The sequence of byte offsets one stage-2 worker reads, one per iteration of
`for _it in 0..IO_READ_ITERATIONS`, with `rs` the worker's stream of
generator draws. -/
def workerReadOffsets (rs : ℕ → ℕ) : List ℕ :=
  (List.range IO_READ_ITERATIONS).map (fun it => readOffset (rs it))

/-- C7: each stage-2 worker performs exactly 20000 reads; every read offset is
a multiple of 4096 drawn as a block index in `[0, file_size / 4096)` times
4096, satisfies `offset + 4096 ≤ file_size`, and the 4096-byte read at that
offset succeeds and transfers exactly 4096 bytes. -/
theorem stage2_reads_aligned_in_bounds (rs : ℕ → ℕ) (r : ℕ) :
    (workerReadOffsets rs).length = IO_READ_ITERATIONS
    ∧ IO_READ_ITERATIONS = 20000
    ∧ readPos r < valid_positions
    ∧ valid_positions = IO_FILE_SIZE / 4096
    ∧ DIRECT_BLOCK_SIZE ∣ readOffset r
    ∧ readOffset r + 4096 ≤ IO_FILE_SIZE
    ∧ (readBlock (List.replicate IO_FILE_SIZE 0) (readOffset r) DIRECT_BLOCK_SIZE).isSome
    ∧ (readBlock (List.replicate IO_FILE_SIZE 0) (readOffset r)
        DIRECT_BLOCK_SIZE).map List.length = some 4096 := by
  have hpos : readPos r < valid_positions := by
    simp only [readPos, randomRange, valid_positions, IO_FILE_SIZE, DIRECT_BLOCK_SIZE]
    omega
  have hbound : readOffset r + 4096 ≤ IO_FILE_SIZE := by
    have h1 : readPos r + 1 ≤ valid_positions := hpos
    have h2 : (readPos r + 1) * DIRECT_BLOCK_SIZE ≤ valid_positions * DIRECT_BLOCK_SIZE :=
      Nat.mul_le_mul_right _ h1
    have h3 : valid_positions * DIRECT_BLOCK_SIZE = IO_FILE_SIZE := by
      norm_num [valid_positions, IO_FILE_SIZE, DIRECT_BLOCK_SIZE]
    rw [Nat.add_mul, Nat.one_mul] at h2
    rw [h3] at h2
    exact h2
  have hlen : (List.replicate IO_FILE_SIZE (0 : ℕ)).length = IO_FILE_SIZE :=
    List.length_replicate _ _
  have hsome : readBlock (List.replicate IO_FILE_SIZE 0) (readOffset r) DIRECT_BLOCK_SIZE
      = some (((List.replicate IO_FILE_SIZE (0 : ℕ)).drop (readOffset r)).take
        DIRECT_BLOCK_SIZE) := by
    rw [readBlock, hlen,
      if_pos (show readOffset r + DIRECT_BLOCK_SIZE ≤ IO_FILE_SIZE from hbound)]
  refine ⟨by simp [workerReadOffsets], rfl, hpos, rfl,
    Dvd.intro_left _ rfl, hbound, by rw [hsome]; rfl, ?_⟩
  rw [hsome, Option.map_some']
  rw [List.length_take, List.length_drop, hlen]
  have hmin : min DIRECT_BLOCK_SIZE (IO_FILE_SIZE - readOffset r) = 4096 := by
    simp only [DIRECT_BLOCK_SIZE] at hbound ⊢
    omega
  rw [hmin]

/- Observable structure of the parallel phases: each phase is abstracted to
the ordered trace of its work-unit executions and timing prints.  A fan-out
work unit can only appear before the phase's final timing print because the
source joins every spawned thread (`handle.join()` /
`into_par_iter().for_each`, which blocks) before `println!` of the elapsed
time. -/

inductive Event
  | monoWork
  | fanWork (i : ℕ)
  | timingPrint
deriving DecidableEq

def Event.isFanWork : Event → Bool
  | .fanWork _ => true
  | _ => false

/-- The fan-out of a parallel phase: one independent work unit per worker,
`(0..threads)` (`into_par_iter().for_each` or the `thread::spawn` loop). -/
def fanoutEvents (threads : ℕ) : List Event :=
  (List.range threads).map Event.fanWork

/-- `bench_section`: run `f` once on the calling thread, print the mono
timing, fan out `f` over the pool, and print the multi timing only after the
fan-out completes. -/
def bench_section (threads : ℕ) : List Event :=
  [Event.monoWork, Event.timingPrint] ++ fanoutEvents threads ++ [Event.timingPrint]

/-- `memory_test_mutex`: spawn `num_threads` workers, join them all, then
print the elapsed time. -/
def memory_test_mutex (threads : ℕ) : List Event :=
  fanoutEvents threads ++ [Event.timingPrint]

/-- `memory_test_atomic`: same spawn/join/print structure as the mutex
benchmark. -/
def memory_test_atomic (threads : ℕ) : List Event :=
  fanoutEvents threads ++ [Event.timingPrint]

/-- `io_benchmarks`: the stage-1 sequential write on the calling thread and
its timing print, then the stage-2 `(0..threads).into_par_iter().for_each`
read fan-out, whose timing is printed only after the fan-out returns (the
best-effort cleanup that follows prints nothing). -/
def io_benchmarks_trace (threads : ℕ) : List Event :=
  [Event.monoWork, Event.timingPrint] ++ fanoutEvents threads ++ [Event.timingPrint]

/-- `fs_benchmarks`: after the untimed base-directory setup, the
`(0..threads).into_par_iter().for_each` create/delete fan-out, whose timing
is printed only after the fan-out returns. -/
def fs_benchmarks_trace (threads : ℕ) : List Event :=
  fanoutEvents threads ++ [Event.timingPrint]

lemma fanoutEvents_countP (threads : ℕ) :
    (fanoutEvents threads).countP Event.isFanWork = threads := by
  rw [fanoutEvents, List.countP_map]
  have : (Event.isFanWork ∘ Event.fanWork) = fun _ => true := by
    funext i
    rfl
  rw [this]
  rw [List.countP_true, List.length_range]

lemma fanoutEvents_length (threads : ℕ) :
    (fanoutEvents threads).length = threads := by
  rw [fanoutEvents, List.length_map, List.length_range]

/-- C2: for every thread count `≥ 1`, each parallel phase's fan-out — the two
`bench_section` phases (CPU and unshared memory), the mutex and atomic
shared-memory phases, the stage-2 I/O read phase and the filesystem phase —
consists of exactly `threads` independent work units, and the phase's timing
print is the last event of its trace: every work unit precedes it, i.e. the
phase joins all workers before its timing is printed. -/
theorem fanout_exact_and_joined_before_print (threads : ℕ) (h : 1 ≤ threads) :
    ((bench_section threads).countP Event.isFanWork = threads
      ∧ (bench_section threads).getLast? = some Event.timingPrint)
    ∧ ((memory_test_mutex threads).countP Event.isFanWork = threads
      ∧ (memory_test_mutex threads).getLast? = some Event.timingPrint)
    ∧ ((memory_test_atomic threads).countP Event.isFanWork = threads
      ∧ (memory_test_atomic threads).getLast? = some Event.timingPrint)
    ∧ ((io_benchmarks_trace threads).countP Event.isFanWork = threads
      ∧ (io_benchmarks_trace threads).getLast? = some Event.timingPrint)
    ∧ ((fs_benchmarks_trace threads).countP Event.isFanWork = threads
      ∧ (fs_benchmarks_trace threads).getLast? = some Event.timingPrint) := by
  have hb : (bench_section threads).countP Event.isFanWork = threads := by
    rw [bench_section, List.countP_append, List.countP_append, fanoutEvents_countP]
    simp [List.countP_cons, Event.isFanWork]
  have hm : (memory_test_mutex threads).countP Event.isFanWork = threads := by
    rw [memory_test_mutex, List.countP_append, fanoutEvents_countP]
    simp [List.countP_cons, Event.isFanWork]
  have hio : (io_benchmarks_trace threads).countP Event.isFanWork = threads := by
    rw [io_benchmarks_trace, List.countP_append, List.countP_append,
      fanoutEvents_countP]
    simp [List.countP_cons, Event.isFanWork]
  have hfs : (fs_benchmarks_trace threads).countP Event.isFanWork = threads := by
    rw [fs_benchmarks_trace, List.countP_append, fanoutEvents_countP]
    simp [List.countP_cons, Event.isFanWork]
  have hl1 : (bench_section threads).getLast? = some Event.timingPrint := by
    rw [bench_section, List.append_assoc, ← List.append_assoc]
    exact List.getLast?_concat _
  have hl2 : (memory_test_mutex threads).getLast? = some Event.timingPrint :=
    List.getLast?_concat _
  have hl3 : (io_benchmarks_trace threads).getLast? = some Event.timingPrint := by
    rw [io_benchmarks_trace, List.append_assoc, ← List.append_assoc]
    exact List.getLast?_concat _
  have hl4 : (fs_benchmarks_trace threads).getLast? = some Event.timingPrint :=
    List.getLast?_concat _
  exact ⟨⟨hb, hl1⟩, ⟨hm, hl2⟩, ⟨hm, hl2⟩, ⟨hio, hl3⟩, ⟨hfs, hl4⟩⟩

/-- Witness for C2 at `threads = 1`. -/
theorem fanout_exact_and_joined_before_print_w :
    ((bench_section 1).countP Event.isFanWork = 1
      ∧ (bench_section 1).getLast? = some Event.timingPrint)
    ∧ ((memory_test_mutex 1).countP Event.isFanWork = 1
      ∧ (memory_test_mutex 1).getLast? = some Event.timingPrint)
    ∧ ((memory_test_atomic 1).countP Event.isFanWork = 1
      ∧ (memory_test_atomic 1).getLast? = some Event.timingPrint)
    ∧ ((io_benchmarks_trace 1).countP Event.isFanWork = 1
      ∧ (io_benchmarks_trace 1).getLast? = some Event.timingPrint)
    ∧ ((fs_benchmarks_trace 1).countP Event.isFanWork = 1
      ∧ (fs_benchmarks_trace 1).getLast? = some Event.timingPrint) :=
  fanout_exact_and_joined_before_print 1 (by decide)

/- Error propagation of `io_benchmarks` and `fs_benchmarks`.  Each fallible
operation kind is given an outcome by an oracle; an operation followed by
`.unwrap()` in the source aborts the run on failure (modelled as
`Except.error`), while the two cleanup deletions are written `let _ = ...`
and their outcome is discarded. -/

/-- Outcomes of the fallible operations of `io_benchmarks`:
`File::create`, `write_all`, `open_with_direct_io`, `seek`, `read_exact`,
and the final `fs::remove_file` cleanup. -/
structure IoOracle where
  createOk : Bool
  writeOk : Bool
  openDirectOk : Bool
  seekOk : Bool
  readOk : Bool
  removeFileOk : Bool

/-- Outcomes of the fallible operations of `fs_benchmarks`:
`create_dir_all`, the per-worker `create_dir`, the per-iteration
`File::create` and `fs::remove_file`, and the final `remove_dir_all`
cleanup. -/
structure FsOracle where
  createDirAllOk : Bool
  createDirOk : Bool
  fileCreateOk : Bool
  fileRemoveOk : Bool
  removeDirAllOk : Bool

/-- `.unwrap()`: propagate the operation's failure as a fatal abort. -/
def check : Bool → Except Unit Unit
  | true => Except.ok ()
  | false => Except.error ()

/-- A loop of `n` iterations each performing one checked operation
(the stage-1 `write_all` loop). -/
def repCheck (b : Bool) : ℕ → Except Unit Unit
  | 0 => Except.ok ()
  | n + 1 => check b >>= fun _ => repCheck b n

/-- A loop of `n` iterations each performing two checked operations
(the stage-2 seek-then-read loop and the fs create-then-remove loop). -/
def repCheck2 (b1 b2 : Bool) : ℕ → Except Unit Unit
  | 0 => Except.ok ()
  | n + 1 => check b1 >>= fun _ => check b2 >>= fun _ => repCheck2 b1 b2 n

/-- One stage-2 I/O worker: open the file with direct I/O, then
`IO_READ_ITERATIONS` iterations of seek + `read_exact`. -/
def ioWorkerRun (o : IoOracle) : Except Unit Unit :=
  check o.openDirectOk >>= fun _ => repCheck2 o.seekOk o.readOk IO_READ_ITERATIONS

/-- One `fs_benchmarks` worker: create its own subdirectory, then
`FS_ITERATIONS` iterations of `File::create` + `fs::remove_file`. -/
def fsWorkerRun (o : FsOracle) : Except Unit Unit :=
  check o.createDirOk >>= fun _ => repCheck2 o.fileCreateOk o.fileRemoveOk FS_ITERATIONS

/-- `(0..threads).into_par_iter().for_each(w)`: run `w` once per worker; a
panic in any worker propagates to the caller after the join. -/
def fanoutRun (threads : ℕ) (w : Except Unit Unit) : Except Unit Unit :=
  (List.range threads).foldl (fun acc _ => acc >>= fun _ => w) (Except.ok ())

/-- `io_benchmarks`: `File::create().unwrap()`, the stage-1 write loop, the
stage-2 parallel read loop, and a final `let _ = fs::remove_file(...)` whose
outcome is discarded. -/
def io_benchmarks (o : IoOracle) (threads : ℕ) : Except Unit Unit :=
  check o.createOk >>= fun _ =>
  repCheck o.writeOk seqWriteCount >>= fun _ =>
  fanoutRun threads (ioWorkerRun o) >>= fun _ =>
  let _cleanup := check o.removeFileOk
  Except.ok ()

/-- `fs_benchmarks`: `create_dir_all().unwrap()`, the parallel
create/delete loop, and a final `let _ = fs::remove_dir_all(base)` whose
outcome is discarded. -/
def fs_benchmarks (o : FsOracle) (threads : ℕ) : Except Unit Unit :=
  check o.createDirAllOk >>= fun _ =>
  fanoutRun threads (fsWorkerRun o) >>= fun _ =>
  let _cleanup := check o.removeDirAllOk
  Except.ok ()

lemma check_true : check true = Except.ok () := rfl

lemma check_false : check false = Except.error () := rfl

lemma error_bind (f : Unit → Except Unit Unit) :
    (Except.error () >>= f) = Except.error () := rfl

lemma ok_bind (f : Unit → Except Unit Unit) : (Except.ok () >>= f) = f () := rfl

lemma repCheck_true (n : ℕ) : repCheck true n = Except.ok () := by
  induction n with
  | zero => rfl
  | succ k ih => exact ih

lemma repCheck_false (n : ℕ) (h : n ≠ 0) : repCheck false n = Except.error () := by
  match n with
  | 0 => exact absurd rfl h
  | k + 1 => rfl

lemma repCheck2_true (n : ℕ) : repCheck2 true true n = Except.ok () := by
  induction n with
  | zero => rfl
  | succ k ih => exact ih

lemma repCheck2_fst_false (b : Bool) (n : ℕ) (h : n ≠ 0) :
    repCheck2 false b n = Except.error () := by
  match n with
  | 0 => exact absurd rfl h
  | k + 1 => rfl

lemma repCheck2_snd_false (b : Bool) (n : ℕ) (h : n ≠ 0) :
    repCheck2 b false n = Except.error () := by
  match n with
  | 0 => exact absurd rfl h
  | k + 1 => cases b <;> rfl

lemma fanoutRun_ok (threads : ℕ) : fanoutRun threads (Except.ok ()) = Except.ok () := by
  induction threads with
  | zero => rfl
  | succ k ih =>
    rw [fanoutRun, List.range_succ, List.foldl_append]
    have ih2 : List.foldl (fun acc _ => acc >>= fun _ => Except.ok ())
        (Except.ok ()) (List.range k) = Except.ok () := ih
    rw [ih2]
    rfl

lemma fanoutRun_error (threads : ℕ) (h : 1 ≤ threads) :
    fanoutRun threads (Except.error ()) = Except.error () := by
  match threads, h with
  | k + 1, _ =>
    rw [fanoutRun, List.range_succ, List.foldl_append]
    have last : ∀ acc : Except Unit Unit,
        List.foldl (fun acc _ => acc >>= fun _ => Except.error ()) acc [k]
          = Except.error () := by
      intro acc
      cases acc with
      | ok a => rfl
      | error e => rfl
    exact last _

/- The twelve oracles exercised by the error-handling claim: every operation
succeeds, only the cleanup deletion fails, or exactly one fatal operation
fails. -/

def ioAllOk : IoOracle := ⟨true, true, true, true, true, true⟩

def ioCleanupFails : IoOracle := ⟨true, true, true, true, true, false⟩

def ioCreateFails : IoOracle := ⟨false, true, true, true, true, true⟩

def ioWriteFails : IoOracle := ⟨true, false, true, true, true, true⟩

def ioOpenFails : IoOracle := ⟨true, true, false, true, true, true⟩

def ioSeekFails : IoOracle := ⟨true, true, true, false, true, true⟩

def ioReadFails : IoOracle := ⟨true, true, true, true, false, true⟩

def fsAllOk : FsOracle := ⟨true, true, true, true, true⟩

def fsCleanupFails : FsOracle := ⟨true, true, true, true, false⟩

def fsBaseDirFails : FsOracle := ⟨false, true, true, true, true⟩

def fsSubdirFails : FsOracle := ⟨true, false, true, true, true⟩

def fsFileCreateFails : FsOracle := ⟨true, true, false, true, true⟩

def fsFileRemoveFails : FsOracle := ⟨true, true, true, false, true⟩

/-- C9: the cleanup deletions at the end of the I/O and filesystem benchmarks
are non-fatal — their failure is ignored and the run completes — whereas the
failure of any other file operation (create, stage-1 write, direct open,
seek, read, subdirectory creation, per-iteration file create or delete)
aborts the run. -/
theorem cleanup_nonfatal_others_fatal (threads : ℕ) (h : 1 ≤ threads) :
    io_benchmarks ioCleanupFails threads = Except.ok ()
    ∧ fs_benchmarks fsCleanupFails threads = Except.ok ()
    ∧ io_benchmarks ioCreateFails threads = Except.error ()
    ∧ io_benchmarks ioWriteFails threads = Except.error ()
    ∧ io_benchmarks ioOpenFails threads = Except.error ()
    ∧ io_benchmarks ioSeekFails threads = Except.error ()
    ∧ io_benchmarks ioReadFails threads = Except.error ()
    ∧ fs_benchmarks fsBaseDirFails threads = Except.error ()
    ∧ fs_benchmarks fsSubdirFails threads = Except.error ()
    ∧ fs_benchmarks fsFileCreateFails threads = Except.error ()
    ∧ fs_benchmarks fsFileRemoveFails threads = Except.error () := by
  have hiter : IO_READ_ITERATIONS ≠ 0 := by norm_num [IO_READ_ITERATIONS]
  have hfs : FS_ITERATIONS ≠ 0 := by norm_num [FS_ITERATIONS]
  have hw : seqWriteCount ≠ 0 := by norm_num [seqWriteCount, IO_FILE_SIZE, writeBufLen]
  refine ⟨?_, ?_, ?_, ?_, ?_, ?_, ?_, ?_, ?_, ?_, ?_⟩
  · simp [io_benchmarks, ioCleanupFails, ioWorkerRun, check, ok_bind, error_bind,
      repCheck_true, repCheck2_true, fanoutRun_ok]
  · simp [fs_benchmarks, fsCleanupFails, fsWorkerRun, check, ok_bind, error_bind,
      repCheck2_true, fanoutRun_ok]
  · simp [io_benchmarks, ioCreateFails, check, error_bind]
  · simp [io_benchmarks, ioWriteFails, check, ok_bind, error_bind, repCheck_false _ hw]
  · simp [io_benchmarks, ioOpenFails, ioWorkerRun, check, ok_bind, error_bind,
      repCheck_true, fanoutRun_error _ h]
  · simp [io_benchmarks, ioSeekFails, ioWorkerRun, check, ok_bind, error_bind,
      repCheck_true, repCheck2_fst_false _ _ hiter, fanoutRun_error _ h]
  · simp [io_benchmarks, ioReadFails, ioWorkerRun, check, ok_bind, error_bind,
      repCheck_true, repCheck2_snd_false _ _ hiter, fanoutRun_error _ h]
  · simp [fs_benchmarks, fsBaseDirFails, check, error_bind]
  · simp [fs_benchmarks, fsSubdirFails, fsWorkerRun, check, ok_bind, error_bind,
      fanoutRun_error _ h]
  · simp [fs_benchmarks, fsFileCreateFails, fsWorkerRun, check, ok_bind, error_bind,
      repCheck2_fst_false _ _ hfs, fanoutRun_error _ h]
  · simp [fs_benchmarks, fsFileRemoveFails, fsWorkerRun, check, ok_bind, error_bind,
      repCheck2_snd_false _ _ hfs, fanoutRun_error _ h]

/-- Witness for C9 at `threads = 1`. -/
theorem cleanup_nonfatal_others_fatal_w :
    io_benchmarks ioCleanupFails 1 = Except.ok ()
    ∧ fs_benchmarks fsCleanupFails 1 = Except.ok ()
    ∧ io_benchmarks ioCreateFails 1 = Except.error ()
    ∧ io_benchmarks ioWriteFails 1 = Except.error ()
    ∧ io_benchmarks ioOpenFails 1 = Except.error ()
    ∧ io_benchmarks ioSeekFails 1 = Except.error ()
    ∧ io_benchmarks ioReadFails 1 = Except.error ()
    ∧ fs_benchmarks fsBaseDirFails 1 = Except.error ()
    ∧ fs_benchmarks fsSubdirFails 1 = Except.error ()
    ∧ fs_benchmarks fsFileCreateFails 1 = Except.error ()
    ∧ fs_benchmarks fsFileRemoveFails 1 = Except.error () :=
  cleanup_nonfatal_others_fatal 1 (by decide)

/-- C10: when no thread count is supplied and the host reports one logical
CPU, the resolved thread count is `0`; with `0` threads every parallel
fan-out consists of zero work units, the benchmarks with fallible operations
still complete without error, and every multi-thread measurement therefore
measures an empty workload. -/
theorem zero_threads_empty_fanouts :
    resolveThreadCount none 1 = 0
    ∧ fanoutEvents 0 = []
    ∧ (bench_section 0).countP Event.isFanWork = 0
    ∧ (memory_test_mutex 0).countP Event.isFanWork = 0
    ∧ (memory_test_atomic 0).countP Event.isFanWork = 0
    ∧ (∀ w : Except Unit Unit, fanoutRun 0 w = Except.ok ())
    ∧ io_benchmarks ioAllOk 0 = Except.ok ()
    ∧ fs_benchmarks fsAllOk 0 = Except.ok () := by
  refine ⟨rfl, rfl, ?_, ?_, ?_, fun w => rfl, ?_, ?_⟩
  · rw [bench_section, List.countP_append, List.countP_append, fanoutEvents_countP]
    simp [List.countP_cons, Event.isFanWork]
  · rw [memory_test_mutex, List.countP_append, fanoutEvents_countP]
    simp [List.countP_cons, Event.isFanWork]
  · rw [memory_test_atomic, List.countP_append, fanoutEvents_countP]
    simp [List.countP_cons, Event.isFanWork]
  · simp [io_benchmarks, ioAllOk, check, ok_bind, repCheck_true, fanoutRun,
      List.range_zero]
  · simp [fs_benchmarks, fsAllOk, check, ok_bind, fanoutRun, List.range_zero]

/- Filesystem benchmark (`fs_benchmarks`): per-worker metadata operations.
Worker `t` works under its own subdirectory `t_{t}` and its iteration `i`
touches the file `{i}.txt`; since both format strings are injective in their
argument, a path is modelled as the pair (worker index of its subdirectory,
file index). -/

inductive FsOp
  | create (dir file : ℕ)
  | delete (dir file : ℕ)
deriving DecidableEq

/-- The subdirectory an operation touches. -/
def FsOp.dir : FsOp → ℕ
  | .create d _ => d
  | .delete d _ => d

/-- One loop iteration of worker `t`: `File::create(&f_path).unwrap()` then
`fs::remove_file(&f_path).unwrap()` on `t_{t}/{i}.txt`. -/
def fsIterOps (t i : ℕ) : List FsOp := [FsOp.create t i, FsOp.delete t i]

/-- All operations of worker `t`, in program order:
`for i in 0..FS_ITERATIONS { create; remove }`. -/
def fsWorkerOps (t : ℕ) : List FsOp :=
  (List.range FS_ITERATIONS).flatMap (fsIterOps t)

/-- Effect of one operation on the set of existing files. -/
def applyFsOp (s : Finset (ℕ × ℕ)) : FsOp → Finset (ℕ × ℕ)
  | .create d f => insert (d, f) s
  | .delete d f => s.erase (d, f)

/-- The set of files existing after the first `n` operations of worker `t`,
starting from an empty subdirectory. -/
def fsStateAfter (t n : ℕ) : Finset (ℕ × ℕ) :=
  ((fsWorkerOps t).take n).foldl applyFsOp ∅

lemma fsRun_take_le_one (t : ℕ) (l : List ℕ) (n : ℕ) :
    (((l.flatMap (fsIterOps t)).take n).foldl applyFsOp ∅).card ≤ 1 := by
  induction l generalizing n with
  | nil => simp
  | cons i rest ih =>
    have hcons : (i :: rest).flatMap (fsIterOps t)
        = FsOp.create t i :: FsOp.delete t i :: rest.flatMap (fsIterOps t) := rfl
    rw [hcons]
    match n with
    | 0 => simp
    | 1 =>
      rw [List.take_succ_cons, List.take_zero, List.foldl_cons, List.foldl_nil]
      rw [show applyFsOp ∅ (FsOp.create t i) = {(t, i)} from rfl]
      simp
    | n + 2 =>
      rw [List.take_succ_cons, List.take_succ_cons, List.foldl_cons, List.foldl_cons]
      rw [show applyFsOp (applyFsOp ∅ (FsOp.create t i)) (FsOp.delete t i) = ∅ by
        show (insert (t, i) (∅ : Finset (ℕ × ℕ))).erase (t, i) = ∅
        rw [Finset.erase_insert (Finset.not_mem_empty _)]]
      exact ih n

lemma fsWorkerOps_dirs (t : ℕ) (op : FsOp) (hop : op ∈ fsWorkerOps t) :
    op.dir = t := by
  rw [fsWorkerOps, List.mem_flatMap] at hop
  obtain ⟨i, _, hmem⟩ := hop
  rw [fsIterOps] at hmem
  rcases List.mem_pair.mp hmem with h2 | h2 <;> rw [h2] <;> rfl

/-- C8: at every point of worker `t`'s loop at most one file exists in its
subdirectory, every operation of worker `t` targets worker `t`'s own
subdirectory, and (for two distinct workers `t ≠ u`) no operation of worker
`t` targets worker `u`'s subdirectory. -/
theorem fs_at_most_one_file_and_disjoint (t u n : ℕ) (hne : t ≠ u) :
    (fsStateAfter t n).card ≤ 1
    ∧ (fsWorkerOps t).all (fun op => FsOp.dir op == t)
    ∧ (fsWorkerOps t).all (fun op => FsOp.dir op != u) := by
  refine ⟨fsRun_take_le_one t _ n, ?_, ?_⟩
  · rw [List.all_eq_true]
    intro op hop
    exact beq_iff_eq.mpr (fsWorkerOps_dirs t op hop)
  · rw [List.all_eq_true]
    intro op hop
    rw [bne_iff_ne]
    rw [fsWorkerOps_dirs t op hop]
    exact hne

/-- Witness for C8 at workers 0 and 1, after three operations. -/
theorem fs_at_most_one_file_and_disjoint_w :
    (fsStateAfter 0 3).card ≤ 1
    ∧ (fsWorkerOps 0).all (fun op => FsOp.dir op == 0)
    ∧ (fsWorkerOps 0).all (fun op => FsOp.dir op != 1) :=
  fs_at_most_one_file_and_disjoint 0 1 3 (by decide)

/- Unshared-memory benchmark (`memory_test_unshared`): exact model of the
`f64` arithmetic as rationals.  A normal positive binary64 value in
`[2^e, 2^(e+1))` carries 53 significand bits, so it is an integer multiple of
`2^e / 2^52`; an operation result is the exact rational result rounded to the
nearest such multiple, ties to even significand (IEEE-754 default rounding).
`rnd64` implements this for rationals `≥ 1`; every value arising in this
benchmark's transform lies in `[1, 4)`, far from the subnormal and overflow
ranges, so no other behavior of binary64 is reachable here. -/

/-- Floor of the base-2 logarithm of a positive natural number. -/
def log2floor (n : ℕ) : ℕ :=
  if n ≥ 2 then log2floor (n / 2) + 1 else 0
termination_by n
decreasing_by exact Nat.div_lt_self (by omega) (by omega)

/-- Round a rational to the nearest integer, ties to the even integer. -/
def roundHalfEven (q : ℚ) : ℤ :=
  if q - ⌊q⌋ < 1 / 2 then ⌊q⌋
  else if (1 : ℚ) / 2 < q - ⌊q⌋ then ⌊q⌋ + 1
  else if ⌊q⌋ % 2 = 0 then ⌊q⌋ else ⌊q⌋ + 1

/-- Binary64 round-to-nearest-even for rationals `≥ 1`: round to the nearest
multiple of `2^e / 2^52` where `2^e ≤ q < 2^(e+1)`. -/
def rnd64 (q : ℚ) : ℚ :=
  if q < 1 then q
  else (roundHalfEven (q * 2 ^ 52 / 2 ^ log2floor ⌊q⌋.toNat) : ℚ)
    * 2 ^ log2floor ⌊q⌋.toNat / 2 ^ 52

/-- One execution of `data[i] = data[i] * 2.5 + 1.2` on `f64` values: the
literals `2.5` and `1.2` are themselves rounded doubles, the multiplication
rounds, then the addition rounds. -/
def f64transform (x : ℚ) : ℚ :=
  rnd64 (rnd64 (x * rnd64 (5 / 2)) + rnd64 (6 / 5))

/-- `memory_test_unshared(size)`: `vec![1.0f64; size]`, then the elementwise
transform applied once to every element. -/
def memory_test_unshared (size : ℕ) : List ℚ :=
  (List.replicate size (rnd64 1)).map f64transform

lemma log2floor_of_lt_two (n : ℕ) (h : n < 2) : log2floor n = 0 := by
  rw [log2floor]
  simp [show ¬ n ≥ 2 by omega]

lemma log2floor_two : log2floor 2 = 1 := by
  rw [log2floor]
  norm_num [log2floor_of_lt_two]

lemma log2floor_three : log2floor 3 = 1 := by
  rw [log2floor]
  norm_num [log2floor_of_lt_two]

lemma rnd64_eval (q : ℚ) (f : ℤ) (e : ℕ) (v : ℤ)
    (h1 : ¬ q < 1) (hf : ⌊q⌋ = f) (he : log2floor f.toNat = e)
    (hv : roundHalfEven (q * 2 ^ 52 / 2 ^ e) = v) :
    rnd64 q = (v : ℚ) * 2 ^ e / 2 ^ 52 := by
  rw [rnd64, if_neg h1, hf, he, hv]

lemma rnd64_one : rnd64 1 = 1 := by
  have h := rnd64_eval 1 1 0 4503599627370496 (by norm_num) (by norm_num)
    (by rw [show Int.toNat 1 = 1 from rfl]; exact log2floor_of_lt_two 1 (by norm_num))
    (by norm_num [roundHalfEven])
  rw [h]
  norm_num

lemma rnd64_lit_2_5 : rnd64 (5 / 2) = 5 / 2 := by
  have h := rnd64_eval (5 / 2) 2 1 5629499534213120 (by norm_num) (by norm_num)
    (by rw [show Int.toNat 2 = 2 from rfl]; exact log2floor_two)
    (by norm_num [roundHalfEven])
  rw [h]
  norm_num

lemma rnd64_lit_1_2 : rnd64 (6 / 5) = 5404319552844595 / 2 ^ 52 := by
  have h := rnd64_eval (6 / 5) 1 0 5404319552844595 (by norm_num) (by norm_num)
    (by rw [show Int.toNat 1 = 1 from rfl]; exact log2floor_of_lt_two 1 (by norm_num))
    (by norm_num [roundHalfEven])
  rw [h]
  norm_num

lemma rnd64_sum : rnd64 (16663318621270835 / 2 ^ 52) = 8331659310635418 / 2 ^ 51 := by
  have h := rnd64_eval (16663318621270835 / 2 ^ 52) 3 1 8331659310635418
    (by norm_num) (by norm_num)
    (by rw [show Int.toNat 3 = 3 from rfl]; exact log2floor_three)
    (by norm_num [roundHalfEven])
  rw [h]
  norm_num

lemma rnd64_3_7 : rnd64 (37 / 10) = 8331659310635418 / 2 ^ 51 := by
  have h := rnd64_eval (37 / 10) 3 1 8331659310635418 (by norm_num) (by norm_num)
    (by rw [show Int.toNat 3 = 3 from rfl]; exact log2floor_three)
    (by norm_num [roundHalfEven])
  rw [h]
  norm_num

lemma f64transform_one : f64transform (rnd64 1) = rnd64 (37 / 10) := by
  rw [f64transform, rnd64_one, one_mul, rnd64_lit_2_5, rnd64_lit_2_5, rnd64_lit_1_2,
    show (5 : ℚ) / 2 + 5404319552844595 / 2 ^ 52 = 16663318621270835 / 2 ^ 52 by norm_num,
    rnd64_sum, rnd64_3_7]

/-- C5: after one application of the elementwise transform to a freshly
allocated sequence of 100000000 doubles all equal to `1.0`, every element
equals the double `3.7` — the binary64 rounding of `1.0 * 2.5 + 1.2`, whose
exact value is `8331659310635418 / 2^51` — and this is independent of the
thread count, every worker producing the identical private sequence. -/
theorem memory_test_unshared_all_3_7 (k : ℕ) :
    memory_test_unshared 100000000
      = List.replicate 100000000 (rnd64 (37 / 10))
    ∧ rnd64 (37 / 10) = 8331659310635418 / 2 ^ 51
    ∧ List.replicate k (memory_test_unshared 100000000)
      = List.replicate k (List.replicate 100000000 (rnd64 (37 / 10))) := by
  have h1 : memory_test_unshared 100000000
      = List.replicate 100000000 (rnd64 (37 / 10)) := by
    rw [memory_test_unshared, List.map_replicate, f64transform_one]
  exact ⟨h1, rnd64_3_7, by rw [h1]⟩

end Benchy
